import Mathlib

/-!
Verification of the spam-detection prediction pipeline of this repository
(backend `model.py` / `main.py` as given in `Assignment-3-Guide.md`, and the
identical `clean_text` in the project README).

The pipeline is embedded shallowly:
  * `clean_text` — the four-step text normalization
    (`str.lower`, `re.sub(r'http\S+', '')`, `re.sub(r'[^a-z\s]', '')`,
    `re.sub(r'\s+', ' ')` followed by `.strip()`), modelled on `List Char`;
  * `SpamDetector.predict` — vectorization, classification and the
    confidence normalization `min(1.0, abs(raw_score) / 3.0)`, with the
    fitted vectorizer and classifier as abstract (possibly failing)
    functions and Python floats modelled as rationals;
  * the HTTP handlers `predict_email` and `predict_batch`, with Python
    exception propagation modelled by `Except`.
-/

/-- Whitespace class used by the Python regexes `\s` / `\S` and by
`str.strip()` on the ASCII range: space, tab, newline, carriage return,
vertical tab and form feed. -/
def isPySpace (c : Char) : Bool :=
  c = ' ' || c = '\t' || c = '\n' || c = '\r' || c = '\x0b' || c = '\x0c'

/-- Lowercasing of a single character as done by Python `str.lower()` on the
ASCII range: `A`–`Z` map to `a`–`z`, everything else is unchanged. -/
def pyLower (c : Char) : Char :=
  if 'A' ≤ c ∧ c ≤ 'Z' then Char.ofNat (c.toNat + 32) else c

/-- Left-to-right scanner implementing `re.sub(r'http\S+', '', text)`.
In state `false` (outside a match) the scanner checks at each position
whether the regex `http\S+` matches there: the four characters `http`
followed by at least one non-whitespace character.  On a match the matched
`http` plus its first following character are consumed unemitted and the
scanner enters state `true`, which consumes the rest of the maximal
non-whitespace run (the greedy `\S+`).  The first whitespace character ends
the match and is processed normally (whitespace can never start a match, so
it is emitted and scanning resumes in state `false`), exactly as `re.sub`
resumes scanning after the end of a match.  Lists of fewer than five
characters cannot contain a match, since a match needs `http` plus at least
one further character. -/
def removeUrlsAux : Bool → List Char → List Char
  | _, [] => []
  | true, c :: rest =>
      if isPySpace c then c :: removeUrlsAux false rest
      else removeUrlsAux true rest
  | false, a :: b :: c :: d :: e :: rest =>
      if a = 'h' && b = 't' && c = 't' && d = 'p' && !isPySpace e then
        removeUrlsAux true rest
      else a :: removeUrlsAux false (b :: c :: d :: e :: rest)
  | false, [a] => [a]
  | false, [a, b] => a :: removeUrlsAux false [b]
  | false, [a, b, c] => a :: removeUrlsAux false [b, c]
  | false, [a, b, c, d] => a :: removeUrlsAux false [b, c, d]

/-- Embedding of `re.sub(r'http\S+', '', text)`. -/
def removeUrls (l : List Char) : List Char :=
  removeUrlsAux false l

/-- Embedding of `re.sub(r'[^a-z\s]', '', text)`: keep exactly the
characters matching `[a-z\s]`. -/
def removeNonAlpha (l : List Char) : List Char :=
  l.filter (fun c => ('a' ≤ c ∧ c ≤ 'z') || isPySpace c)

/-- Left-to-right scanner implementing `re.sub(r'\s+', ' ', text)`: every
maximal run of whitespace characters is replaced by a single space.  The
state records whether the previous character was part of a whitespace run,
so the first character of each run emits the single `' '` and the rest of
the run emits nothing. -/
def collapseWsAux : Bool → List Char → List Char
  | _, [] => []
  | inRun, c :: rest =>
      if isPySpace c then
        (if inRun then [] else [' ']) ++ collapseWsAux true rest
      else
        c :: collapseWsAux false rest

/-- Embedding of `re.sub(r'\s+', ' ', text)`. -/
def collapseWs (l : List Char) : List Char :=
  collapseWsAux false l

/-- Embedding of Python `str.strip()`: remove leading and trailing
whitespace characters. -/
def pyStrip (l : List Char) : List Char :=
  ((l.dropWhile isPySpace).reverse.dropWhile isPySpace).reverse

/-- The `SpamDetector.clean_text` method of `model.py` on lists of
characters: lowercase, remove URLs, remove non-alphabetic characters,
collapse whitespace runs to single spaces and strip. -/
def cleanList (l : List Char) : List Char :=
  pyStrip (collapseWs (removeNonAlpha (removeUrls (l.map pyLower))))

/-- The `SpamDetector.clean_text` method of `model.py` on strings. -/
def clean_text (s : String) : String :=
  ⟨cleanList s.data⟩

/-- Python's built-in `abs` on rationals. -/
def pyAbs (q : ℚ) : ℚ := if q < 0 then -q else q

/-- Python's built-in two-argument `min`: returns the second argument when
it is strictly smaller, otherwise the first. -/
def pyMin (a b : ℚ) : ℚ := if b < a then b else a

theorem pyAbs_eq_abs (q : ℚ) : pyAbs q = |q| := by
  unfold pyAbs
  rcases lt_or_ge q 0 with h | h
  · simp [h, abs_of_neg h]
  · simp [not_lt.mpr h, abs_of_nonneg h]

theorem pyMin_eq_min (a b : ℚ) : pyMin a b = min a b := by
  unfold pyMin
  rcases lt_or_ge b a with h | h
  · simp [h, min_eq_right h.le]
  · simp [not_lt.mpr h, min_eq_left h]

/-- The dictionary returned by `SpamDetector.predict` (the
`PredictionResponse` model of `main.py`), with Python floats modelled as
rationals. -/
structure PredictionResult where
  prediction : String
  label : Int
  confidence : ℚ
  confidence_percentage : ℚ
  raw_score : ℚ
deriving Repr, DecidableEq

instance {ε α : Type} [DecidableEq ε] [DecidableEq α] :
    DecidableEq (Except ε α) := fun
  | .ok a, .ok b =>
      if h : a = b then .isTrue (by rw [h]) else .isFalse (by simp [h])
  | .error a, .error b =>
      if h : a = b then .isTrue (by rw [h]) else .isFalse (by simp [h])
  | .ok _, .error _ => .isFalse (by simp)
  | .error _, .ok _ => .isFalse (by simp)

/-- The two fitted artifacts used by `SpamDetector`: the vectorizer's
`transform` and the classifier's `predict` and `decision_function`, each
modelled as a function that may raise (`Except.error`).  `Vec` is the
opaque feature-vector type and `Err` the type of Python exceptions. -/
structure Artifacts (Vec Err : Type) where
  transform : String → Except Err Vec
  model_predict : Vec → Except Err Int
  decision_function : Vec → Except Err ℚ

/-- The `SpamDetector.predict` method of `model.py`: clean the text,
vectorize it, take the classifier's label and decision-function score, and
normalize `abs(raw_score)` by `min(1.0, abs(raw_score) / 3.0)`.  An
exception raised by any step propagates (the method has no handler). -/
def SpamDetector.predict {Vec Err : Type} (A : Artifacts Vec Err)
    (email_text : String) : Except Err PredictionResult := do
  let cleaned_text := clean_text email_text
  let vectorized_text ← A.transform cleaned_text
  let prediction ← A.model_predict vectorized_text
  let confidence_score ← A.decision_function vectorized_text
  let confidence := pyAbs confidence_score
  let normalized_confidence := pyMin 1 (confidence / 3)
  return { prediction := if prediction = 1 then "Spam" else "Ham"
           label := prediction
           confidence := normalized_confidence
           confidence_percentage := normalized_confidence * 100
           raw_score := confidence_score }

/-- An HTTP error response as produced by FastAPI's `HTTPException`. -/
structure HTTPError where
  status_code : Nat
  detail : String
deriving Repr, DecidableEq

/-- An exception flowing inside the try-block of an endpoint: either an
`HTTPException` raised explicitly by the endpoint itself, or an underlying
Python exception of type `Err` escaping from `SpamDetector.predict`.  Both
derive from Python's `Exception`, so both are caught by the endpoints'
`except Exception` handlers. -/
inductive TryErr (Err : Type)
  | httpExc (e : HTTPError)
  | exc (e : Err)

/-- Python's `str(e)` on an exception of the try-block: an `HTTPException`
prints as `status_code: detail`, an underlying exception via the given
`strOfErr`. -/
def TryErr.toMessage {Err : Type} (strOfErr : Err → String) : TryErr Err → String
  | .httpExc e => toString e.status_code ++ ": " ++ e.detail
  | .exc e => strOfErr e

/-- The `/predict` endpoint `predict_email` of `main.py` (with the model
loaded, so the initial `spam_detector is None` guard does not fire).
Inside its try-block it raises a 400 `HTTPException` when the input strips
to the empty string and otherwise calls `SpamDetector.predict`; its
`except Exception` clause catches every exception raised in the try-block
— including the endpoint's own 400 `HTTPException` — and re-raises it as a
500 `Prediction failed` error. -/
def predict_email {Vec Err : Type} (A : Artifacts Vec Err)
    (strOfErr : Err → String) (text : String) :
    Except HTTPError PredictionResult :=
  let body : Except (TryErr Err) PredictionResult :=
    if (pyStrip text.data).isEmpty then
      .error (.httpExc ⟨400, "Email text cannot be empty"⟩)
    else
      match SpamDetector.predict A text with
      | .ok r => .ok r
      | .error e => .error (.exc e)
  match body with
  | .ok r => .ok r
  | .error e =>
      .error ⟨500, "Prediction failed: " ++ TryErr.toMessage strOfErr e⟩

/-- One element of the `results` list built by `predict_batch`: either the
`{"index": idx, "error": "Empty email text"}` dictionary appended for an
input that strips to the empty string, or a prediction dictionary with the
index added. -/
inductive BatchEntry
  | errorEntry (index : Nat) (error : String)
  | predEntry (index : Nat) (r : PredictionResult)
deriving Repr, DecidableEq

/-- The test `r.get("prediction") == "Spam"` of `predict_batch`: an error
entry has no `prediction` key, so `get` returns `None` and the test is
false. -/
def isSpamEntry : BatchEntry → Bool
  | .errorEntry _ _ => false
  | .predEntry _ r => r.prediction = "Spam"

/-- The response dictionary of `predict_batch`. -/
structure BatchResponse where
  total : Nat
  spam_count : Nat
  ham_count : Nat
  results : List BatchEntry
deriving Repr, DecidableEq

/-- The `for idx, email_text in enumerate(batch.emails)` loop in the
try-block of `predict_batch`: empty-after-strip inputs append an error
entry, all others call `SpamDetector.predict`.  An exception raised by
`predict` aborts the loop (and discards the accumulated results), because
the whole loop sits inside a single try-block. -/
def batchLoop {Vec Err : Type} (A : Artifacts Vec Err) :
    Nat → List String → Except Err (List BatchEntry)
  | _, [] => .ok []
  | idx, t :: rest =>
      if (pyStrip t.data).isEmpty then
        (batchLoop A (idx + 1) rest).map
          (fun l => .errorEntry idx "Empty email text" :: l)
      else
        match SpamDetector.predict A t with
        | .error e => .error e
        | .ok r =>
            (batchLoop A (idx + 1) rest).map (fun l => .predEntry idx r :: l)

/-- The `/predict-batch` endpoint `predict_batch` of `main.py` (with the
model loaded): run the loop; on success count the entries whose
`prediction` field equals `"Spam"` (`spam_count`), set
`ham_count = len(results) - spam_count`, and return the response; an
exception escaping the loop is turned into a 500 error by the
`except Exception` clause. -/
def predict_batch {Vec Err : Type} (A : Artifacts Vec Err)
    (strOfErr : Err → String) (emails : List String) :
    Except HTTPError BatchResponse :=
  match batchLoop A 0 emails with
  | .error e => .error ⟨500, "Batch prediction failed: " ++ strOfErr e⟩
  | .ok results =>
      let spam_count := results.countP isSpamEntry
      let ham_count := results.length - spam_count
      .ok { total := results.length, spam_count := spam_count,
            ham_count := ham_count, results := results }

example : clean_text "  Hello, WORLD! 123 http://x.com ok" = "hello world ok" := by
  decide

example : clean_text "HTTP://X.COM" = "" := by decide

example : clean_text "htt!px" = "httpx" := by decide

example : clean_text (clean_text "htt!px") = "" := by decide

example : clean_text "http foo" = "http foo" := by decide

example : clean_text "ahttp://b cd" = "a cd" := by decide

example :
    SpamDetector.predict
      { transform := fun s => Except.ok s
        model_predict := fun _ => Except.ok 1
        decision_function := fun _ => (Except.ok 6 : Except Unit ℚ) }
      "  Hello, WORLD! 123 http://x.com ok" =
    Except.ok { prediction := "Spam", label := 1
                confidence := pyMin 1 (pyAbs 6 / 3)
                confidence_percentage := pyMin 1 (pyAbs 6 / 3) * 100
                raw_score := 6 } := rfl

/-- Shape of a successful `SpamDetector.predict` call: the three artifact
steps succeeded and the result record is assembled from their outputs. -/
theorem predict_ok_shape {Vec Err : Type} (A : Artifacts Vec Err)
    (t : String) (r : PredictionResult)
    (h : SpamDetector.predict A t = .ok r) :
    ∃ v p s, A.transform (clean_text t) = .ok v ∧
      A.model_predict v = .ok p ∧ A.decision_function v = .ok s ∧
      r = { prediction := if p = 1 then "Spam" else "Ham"
            label := p
            confidence := pyMin 1 (pyAbs s / 3)
            confidence_percentage := pyMin 1 (pyAbs s / 3) * 100
            raw_score := s } := by
  cases htr : A.transform (clean_text t) with
  | error e =>
      simp [SpamDetector.predict, htr, Bind.bind, Except.bind] at h
  | ok v =>
    cases hp : A.model_predict v with
    | error e =>
        simp [SpamDetector.predict, htr, hp, Bind.bind, Except.bind] at h
    | ok p =>
      cases hs : A.decision_function v with
      | error e =>
          simp [SpamDetector.predict, htr, hp, hs, Bind.bind, Except.bind] at h
      | ok s =>
        refine ⟨v, p, s, rfl, hp, hs, ?_⟩
        simp only [SpamDetector.predict, htr, hp, hs, Bind.bind, Except.bind,
          Pure.pure, Except.pure, Except.ok.injEq] at h
        exact h.symm

/-- Artifacts used to exercise the theorems on concrete inputs: the
vectorizer is the identity on the cleaned text, the classifier labels
everything `1` with decision score `6`. -/
def demoArtifacts : Artifacts String String :=
  { transform := fun s => .ok s
    model_predict := fun _ => .ok 1
    decision_function := fun _ => .ok 6 }

/-- Result of `SpamDetector.predict demoArtifacts` on any text. -/
def demoResult : PredictionResult :=
  { prediction := "Spam", label := 1
    confidence := pyMin 1 (pyAbs 6 / 3)
    confidence_percentage := pyMin 1 (pyAbs 6 / 3) * 100
    raw_score := 6 }

/-- C1: for every input text, the `confidence` field of the
`PredictionResult` returned by `predict` equals
`min(1.0, abs(raw_score) / 3.0)` where `raw_score` is the value returned by
the classifier's `decision_function`; if `abs(raw_score) >= 3.0` then
`confidence == 1.0` exactly, and if `abs(raw_score) < 3.0` then
`confidence == abs(raw_score) / 3.0`. -/
theorem predict_confidence_normalization {Vec Err : Type}
    (A : Artifacts Vec Err) (text : String) (r : PredictionResult)
    (h : SpamDetector.predict A text = .ok r) :
    r.confidence = min 1 (|r.raw_score| / 3) ∧
    (∀ v, A.transform (clean_text text) = .ok v →
      A.decision_function v = .ok r.raw_score) ∧
    (3 ≤ |r.raw_score| → r.confidence = 1) ∧
    (|r.raw_score| < 3 → r.confidence = |r.raw_score| / 3) := by
  obtain ⟨v, p, s, htr, hp, hs, hr⟩ := predict_ok_shape A text r h
  subst hr
  refine ⟨?_, ?_, ?_, ?_⟩
  · show pyMin 1 (pyAbs s / 3) = min 1 (|s| / 3)
    rw [pyMin_eq_min, pyAbs_eq_abs]
  · intro v' hv'
    rw [htr] at hv'
    injection hv' with hv'
    rw [← hv']
    exact hs
  · intro hsat
    have hsat' : (3 : ℚ) ≤ |s| := hsat
    show pyMin 1 (pyAbs s / 3) = 1
    rw [pyMin_eq_min, pyAbs_eq_abs]
    have h1 : (1 : ℚ) ≤ |s| / 3 := by
      rw [le_div_iff₀ (by norm_num : (0:ℚ) < 3)]
      linarith
    exact min_eq_left h1
  · intro hlin
    have hlin' : |s| < (3 : ℚ) := hlin
    show pyMin 1 (pyAbs s / 3) = |s| / 3
    rw [pyMin_eq_min, pyAbs_eq_abs]
    have h1 : |s| / 3 ≤ 1 := by
      rw [div_le_one (by norm_num : (0:ℚ) < 3)]
      linarith
    exact min_eq_right h1

/-- Witness: `predict_confidence_normalization` applied to concrete
artifacts with decision score 6, where the confidence saturates at 1. -/
theorem predict_confidence_normalization_witness :
    demoResult.confidence = min 1 (|demoResult.raw_score| / 3) ∧
    demoResult.confidence = 1 :=
  have h := predict_confidence_normalization demoArtifacts "win money now"
    demoResult rfl
  ⟨h.1, h.2.2.1 (le_trans (by decide : (3:ℚ) ≤ 6) (le_abs_self 6))⟩

/-- C2: every `PredictionResult` returned by `predict` satisfies
`0 <= confidence <= 1` (however large `raw_score` is) and
`confidence_percentage == confidence * 100`. -/
theorem predict_confidence_bounds {Vec Err : Type}
    (A : Artifacts Vec Err) (text : String) (r : PredictionResult)
    (h : SpamDetector.predict A text = .ok r) :
    0 ≤ r.confidence ∧ r.confidence ≤ 1 ∧
    r.confidence_percentage = r.confidence * 100 := by
  obtain ⟨v, p, s, htr, hp, hs, hr⟩ := predict_ok_shape A text r h
  subst hr
  refine ⟨?_, ?_, rfl⟩
  · show (0 : ℚ) ≤ pyMin 1 (pyAbs s / 3)
    rw [pyMin_eq_min, pyAbs_eq_abs]
    exact le_min (by norm_num) (div_nonneg (abs_nonneg s) (by norm_num))
  · show pyMin 1 (pyAbs s / 3) ≤ 1
    rw [pyMin_eq_min, pyAbs_eq_abs]
    exact min_le_left 1 _

/-- Witness: `predict_confidence_bounds` applied to concrete artifacts. -/
theorem predict_confidence_bounds_witness :
    0 ≤ demoResult.confidence ∧ demoResult.confidence ≤ 1 ∧
    demoResult.confidence_percentage = demoResult.confidence * 100 :=
  predict_confidence_bounds demoArtifacts "hello" demoResult rfl

/-- C3: for every `PredictionResult` returned by `predict`,
`label == 1` holds iff `prediction == "Spam"`, and the `label` field is the
classifier's own `predict` output on the feature vector — even for
classifiers whose label disagrees with the sign of the decision score, the
label is never re-derived from `raw_score`. -/
theorem predict_label_prediction_consistency {Vec Err : Type}
    (A : Artifacts Vec Err) (text : String) (r : PredictionResult)
    (h : SpamDetector.predict A text = .ok r) :
    (r.label = 1 ↔ r.prediction = "Spam") ∧
    (∀ v p, A.transform (clean_text text) = .ok v →
      A.model_predict v = .ok p → r.label = p) := by
  obtain ⟨v, p, s, htr, hp, hs, hr⟩ := predict_ok_shape A text r h
  subst hr
  constructor
  · show (p = 1) ↔ (if p = 1 then "Spam" else "Ham") = "Spam"
    rcases eq_or_ne p 1 with h1 | h1
    · rw [if_pos h1]
      exact ⟨fun _ => rfl, fun _ => h1⟩
    · rw [if_neg h1]
      exact ⟨fun hc => absurd hc h1, fun hc => absurd hc (by decide)⟩
  · intro v' p' hv' hp'
    show p = p'
    rw [htr] at hv'
    injection hv' with hv'
    rw [← hv', hp] at hp'
    exact Except.ok.inj hp'

/-- Artifacts whose classifier labels everything `0` while the decision
score is the positive number 6: the label disagrees with the sign of the
raw score. -/
def mismatchArtifacts : Artifacts String String :=
  { transform := fun s => .ok s
    model_predict := fun _ => .ok 0
    decision_function := fun _ => .ok 6 }

/-- Result of `SpamDetector.predict mismatchArtifacts` on any text: `Ham`
with label 0 although the raw score is positive. -/
def mismatchResult : PredictionResult :=
  { prediction := "Ham", label := 0
    confidence := pyMin 1 (pyAbs 6 / 3)
    confidence_percentage := pyMin 1 (pyAbs 6 / 3) * 100
    raw_score := 6 }

/-- Witness: `predict_label_prediction_consistency` at artifacts whose
classifier returns label 0 on a feature vector with positive decision
score: the result's label is the classifier's 0, not the sign of 6. -/
theorem predict_label_prediction_consistency_witness :
    (mismatchResult.label = 1 ↔ mismatchResult.prediction = "Spam") ∧
    mismatchResult.label = 0 :=
  have h := predict_label_prediction_consistency mismatchArtifacts "x y"
    mismatchResult rfl
  ⟨h.1, h.2 (clean_text "x y") 0 rfl rfl⟩

/-- C7: when a vectorization or classification step raises inside
`predict`, the call signals an error carrying that underlying exception and
produces no (partial) `PredictionResult`; when every step succeeds it
returns exactly one fully populated `PredictionResult` — `Except` has no
third alternative, so an absent/`None` result is impossible. -/
theorem predict_error_propagation {Vec Err : Type} (A : Artifacts Vec Err)
    (t : String) :
    (∀ e, A.transform (clean_text t) = .error e →
      SpamDetector.predict A t = .error e) ∧
    (∀ v e, A.transform (clean_text t) = .ok v →
      A.model_predict v = .error e →
      SpamDetector.predict A t = .error e) ∧
    (∀ v p e, A.transform (clean_text t) = .ok v →
      A.model_predict v = .ok p → A.decision_function v = .error e →
      SpamDetector.predict A t = .error e) ∧
    (∀ v p s, A.transform (clean_text t) = .ok v →
      A.model_predict v = .ok p → A.decision_function v = .ok s →
      SpamDetector.predict A t =
        .ok { prediction := if p = 1 then "Spam" else "Ham"
              label := p
              confidence := pyMin 1 (pyAbs s / 3)
              confidence_percentage := pyMin 1 (pyAbs s / 3) * 100
              raw_score := s }) := by
  refine ⟨?_, ?_, ?_, ?_⟩
  · intro e htr
    simp [SpamDetector.predict, htr, Bind.bind, Except.bind]
  · intro v e htr hp
    simp [SpamDetector.predict, htr, hp, Bind.bind, Except.bind]
  · intro v p e htr hp hs
    simp [SpamDetector.predict, htr, hp, hs, Bind.bind, Except.bind]
  · intro v p s htr hp hs
    simp [SpamDetector.predict, htr, hp, hs, Bind.bind, Except.bind,
      Pure.pure, Except.pure]

/-- Artifacts whose vectorizer raises on every input. -/
def failingArtifacts : Artifacts String String :=
  { transform := fun _ => .error "vectorizer exploded"
    model_predict := fun _ => .ok 1
    decision_function := fun _ => .ok 6 }

/-- Witness: `predict_error_propagation` at artifacts whose vectorizer
raises — the call reports exactly that underlying error. -/
theorem predict_error_propagation_witness :
    SpamDetector.predict failingArtifacts "boom" = .error "vectorizer exploded" :=
  (predict_error_propagation failingArtifacts "boom").1 "vectorizer exploded" rfl

/-- C8: for a fixed pair of loaded artifacts, two `predict` calls with
identical input text return identical `PredictionResult` values in all five
fields. -/
theorem predict_deterministic {Vec Err : Type} (A : Artifacts Vec Err)
    (t1 t2 : String) (ht : t1 = t2) (r1 r2 : PredictionResult)
    (h1 : SpamDetector.predict A t1 = .ok r1)
    (h2 : SpamDetector.predict A t2 = .ok r2) :
    r1.prediction = r2.prediction ∧ r1.label = r2.label ∧
    r1.raw_score = r2.raw_score ∧ r1.confidence = r2.confidence ∧
    r1.confidence_percentage = r2.confidence_percentage := by
  subst ht
  rw [h1] at h2
  have heq := Except.ok.inj h2
  subst heq
  exact ⟨rfl, rfl, rfl, rfl, rfl⟩

/-- Witness: `predict_deterministic` at concrete artifacts and text. -/
theorem predict_deterministic_witness :
    demoResult.prediction = demoResult.prediction ∧
    demoResult.label = demoResult.label ∧
    demoResult.raw_score = demoResult.raw_score ∧
    demoResult.confidence = demoResult.confidence ∧
    demoResult.confidence_percentage = demoResult.confidence_percentage :=
  predict_deterministic demoArtifacts "free prize" "free prize" rfl
    demoResult demoResult rfl rfl

/-- C9: a request whose text is non-empty but all whitespace makes the
`/predict` endpoint raise its 400 `Email text cannot be empty`
`HTTPException` inside the try-block; the endpoint's own `except Exception`
clause catches it and replaces it by a 500 `Prediction failed` error, so
the caller observes status 500, never 400. -/
theorem predict_email_whitespace_500 {Vec Err : Type} (A : Artifacts Vec Err)
    (strOfErr : Err → String) (text : String) (_hne : text ≠ "")
    (hws : (pyStrip text.data).isEmpty = true) :
    predict_email A strOfErr text =
      .error ⟨500, "Prediction failed: 400: Email text cannot be empty"⟩ ∧
    ∀ d, predict_email A strOfErr text ≠ .error ⟨400, d⟩ := by
  have hmain : predict_email A strOfErr text =
      .error ⟨500, "Prediction failed: 400: Email text cannot be empty"⟩ := by
    unfold predict_email
    rw [if_pos hws]
    rfl
  refine ⟨hmain, ?_⟩
  intro d hd
  rw [hmain] at hd
  have := Except.error.inj hd
  have h400 : (500 : Nat) = 400 := congrArg HTTPError.status_code this
  exact absurd h400 (by decide)

/-- Witness: `predict_email_whitespace_500` on the three-space input. -/
theorem predict_email_whitespace_500_witness :
    predict_email demoArtifacts id "   " =
      .error ⟨500, "Prediction failed: 400: Email text cannot be empty"⟩ ∧
    ∀ d, predict_email demoArtifacts id "   " ≠ .error ⟨400, d⟩ :=
  predict_email_whitespace_500 demoArtifacts id "   " (by decide) (by decide)

/-- Shape of a successful run of the `predict_batch` loop: the results
list has one entry per input, in input order; input `i` yields the error
entry `{"index": idx+i, "error": "Empty email text"}` when it strips to
the empty string and otherwise the indexed result of an (independent)
successful `SpamDetector.predict` call. -/
theorem batchLoop_ok_shape {Vec Err : Type} (A : Artifacts Vec Err) :
    ∀ (emails : List String) (idx : Nat) (l : List BatchEntry),
      batchLoop A idx emails = .ok l →
      l.length = emails.length ∧
      ∀ i (hi : i < emails.length),
        ((pyStrip (emails[i].data)).isEmpty = true ∧
          l[i]? = some (.errorEntry (idx + i) "Empty email text")) ∨
        ((pyStrip (emails[i].data)).isEmpty = false ∧
          ∃ r, SpamDetector.predict A (emails[i]) = .ok r ∧
            l[i]? = some (.predEntry (idx + i) r)) := by
  intro emails
  induction emails with
  | nil =>
      intro idx l h
      simp only [batchLoop, Except.ok.injEq] at h
      subst h
      exact ⟨rfl, fun i hi => absurd hi (by simp)⟩
  | cons t rest ih =>
      intro idx l h
      simp only [batchLoop] at h
      by_cases he : (pyStrip t.data).isEmpty
      · rw [if_pos he] at h
        cases hb : batchLoop A (idx + 1) rest with
        | error e => rw [hb] at h; simp [Except.map] at h
        | ok l' =>
            rw [hb] at h
            simp only [Except.map, Except.ok.injEq] at h
            subst h
            obtain ⟨hlen, hix⟩ := ih (idx + 1) l' hb
            refine ⟨by simp [hlen], ?_⟩
            intro i hi
            cases i with
            | zero => exact Or.inl ⟨by simpa using he, by simp⟩
            | succ j =>
                have hj : j < rest.length := by simpa using hi
                have := hix j hj
                simpa [Nat.add_assoc, Nat.add_comm 1 j] using this
      · rw [if_neg he] at h
        cases hpred : SpamDetector.predict A t with
        | error e => rw [hpred] at h; simp at h
        | ok r =>
            rw [hpred] at h
            cases hb : batchLoop A (idx + 1) rest with
            | error e => rw [hb] at h; simp [Except.map] at h
            | ok l' =>
                rw [hb] at h
                simp only [Except.map, Except.ok.injEq] at h
                subst h
                obtain ⟨hlen, hix⟩ := ih (idx + 1) l' hb
                refine ⟨by simp [hlen], ?_⟩
                intro i hi
                cases i with
                | zero =>
                    refine Or.inr ⟨by simpa using (eq_false_of_ne_true he), r, ?_, by simp⟩
                    simpa using hpred
                | succ j =>
                    have hj : j < rest.length := by simpa using hi
                    have := hix j hj
                    simpa [Nat.add_assoc, Nat.add_comm 1 j] using this

/-- When every input that is non-empty after stripping predicts
successfully, the `predict_batch` loop completes. -/
theorem batchLoop_total {Vec Err : Type} (A : Artifacts Vec Err) :
    ∀ (emails : List String) (idx : Nat),
      (∀ t ∈ emails, (pyStrip t.data).isEmpty = false →
        ∃ r, SpamDetector.predict A t = .ok r) →
      ∃ l, batchLoop A idx emails = .ok l := by
  intro emails
  induction emails with
  | nil => intro idx _; exact ⟨[], rfl⟩
  | cons t rest ih =>
      intro idx hall
      obtain ⟨l', hl'⟩ := ih (idx + 1) (fun u hu => hall u (by simp [hu]))
      by_cases he : (pyStrip t.data).isEmpty
      · refine ⟨.errorEntry idx "Empty email text" :: l', ?_⟩
        simp only [batchLoop]
        rw [if_pos he, hl']
        rfl
      · obtain ⟨r, hr⟩ := hall t (by simp) (eq_false_of_ne_true he)
        refine ⟨.predEntry idx r :: l', ?_⟩
        simp only [batchLoop]
        rw [if_neg he, hr, hl']
        rfl

/-- C6 (amended): when `SpamDetector.predict` succeeds on every input that
is non-empty after stripping, the batch endpoint behaves as independent
`predict` calls with results in input order, and items that strip to the
empty string are isolated as error entries; but the isolation does not
extend to prediction exceptions — a successful batch requires every
non-empty item's `predict` call to have succeeded, so one raising item
aborts the whole batch (see the counterexample). -/
theorem predict_batch_independent_in_order {Vec Err : Type}
    (A : Artifacts Vec Err) (strOfErr : Err → String) (emails : List String) :
    ((∀ t ∈ emails, (pyStrip t.data).isEmpty = false →
        ∃ r, SpamDetector.predict A t = .ok r) →
      ∃ resp, predict_batch A strOfErr emails = .ok resp ∧
        resp.results.length = emails.length ∧
        ∀ i (hi : i < emails.length),
          ((pyStrip (emails[i].data)).isEmpty = true ∧
            resp.results[i]? = some (.errorEntry i "Empty email text")) ∨
          (∃ r, SpamDetector.predict A (emails[i]) = .ok r ∧
            resp.results[i]? = some (.predEntry i r))) ∧
    (∀ resp, predict_batch A strOfErr emails = .ok resp →
      ∀ t ∈ emails, (pyStrip t.data).isEmpty = false →
        ∃ r, SpamDetector.predict A t = .ok r) := by
  constructor
  · intro hall
    obtain ⟨l, hl⟩ := batchLoop_total A emails 0 hall
    refine ⟨_, by rw [predict_batch, hl], ?_, ?_⟩
    · show l.length = emails.length
      exact (batchLoop_ok_shape A emails 0 l hl).1
    · intro i hi
      rcases (batchLoop_ok_shape A emails 0 l hl).2 i hi with ⟨h1, h2⟩ | ⟨h1, r, h2, h3⟩
      · exact Or.inl ⟨h1, by simpa using h2⟩
      · exact Or.inr ⟨r, h2, by simpa using h3⟩
  · intro resp hresp t ht hne
    have : ∃ l, batchLoop A 0 emails = .ok l := by
      rw [predict_batch] at hresp
      cases hb : batchLoop A 0 emails with
      | error e => rw [hb] at hresp; exact absurd hresp (by simp)
      | ok l => exact ⟨l, rfl⟩
    obtain ⟨l, hl⟩ := this
    obtain ⟨i, hi, hit⟩ := List.getElem_of_mem ht
    rcases (batchLoop_ok_shape A emails 0 l hl).2 i hi with ⟨h1, _⟩ | ⟨_, r, h2, _⟩
    · rw [hit] at h1
      rw [h1] at hne
      exact absurd hne (by decide)
    · exact ⟨r, by rwa [hit] at h2⟩

/-- Witness: `predict_batch_independent_in_order` on a two-element batch
where the first input strips to empty and the second predicts
successfully. -/
theorem predict_batch_independent_in_order_witness :
    ∃ resp, predict_batch demoArtifacts id ["", "hi"] = .ok resp ∧
      resp.results.length = (["", "hi"] : List String).length ∧
      ∀ i (hi : i < (["", "hi"] : List String).length),
        ((pyStrip ((["", "hi"] : List String)[i].data)).isEmpty = true ∧
          resp.results[i]? = some (.errorEntry i "Empty email text")) ∨
        (∃ r, SpamDetector.predict demoArtifacts ((["", "hi"] : List String)[i]) = .ok r ∧
          resp.results[i]? = some (.predEntry i r)) :=
  (predict_batch_independent_in_order demoArtifacts id ["", "hi"]).1
    (by
      intro t ht hne
      simp only [List.mem_cons, List.not_mem_nil, or_false] at ht
      rcases ht with rfl | rfl
      · exact absurd hne (by decide)
      · exact ⟨demoResult, rfl⟩)

/-- Artifacts whose vectorizer raises on the cleaned text `boom` and
succeeds on every other input. -/
def partialArtifacts : Artifacts String String :=
  { transform := fun s => if s = "boom" then .error "bad vector" else .ok s
    model_predict := fun _ => .ok 1
    decision_function := fun _ => .ok 6 }

/-- Counterexample to C6 as stated: with artifacts that raise on the first
batch item only, the second item's `predict` call succeeds on its own, yet
the batch endpoint returns a single 500 error and no results list at all —
a prediction error on one item aborts the remaining items instead of being
isolated per item. -/
theorem predict_batch_no_isolation_cex :
    SpamDetector.predict partialArtifacts "hello" =
      .ok { prediction := "Spam", label := 1
            confidence := pyMin 1 (pyAbs 6 / 3)
            confidence_percentage := pyMin 1 (pyAbs 6 / 3) * 100
            raw_score := 6 } ∧
    predict_batch partialArtifacts id ["boom", "hello"] =
      .error ⟨500, "Batch prediction failed: bad vector"⟩ ∧
    ∀ resp, predict_batch partialArtifacts id ["boom", "hello"] ≠ .ok resp := by
  refine ⟨rfl, rfl, ?_⟩
  intro resp hresp
  rw [show predict_batch partialArtifacts id ["boom", "hello"] =
      .error ⟨500, "Batch prediction failed: bad vector"⟩ from rfl] at hresp
  exact absurd hresp (by simp)

/-- Count of entries satisfying a predicate plus the count of entries
failing it is the length of the list. -/
theorem countP_add_countP_not (p : BatchEntry → Bool) (l : List BatchEntry) :
    l.countP p + l.countP (fun a => !p a) = l.length := by
  induction l with
  | nil => rfl
  | cons c t ih =>
      by_cases h : p c
      · simp [List.countP_cons, h, ← ih]
        omega
      · simp [List.countP_cons, h, ← ih]
        omega

/-- C10: in the batch operation, every input that is empty after stripping
produces a result entry that carries only the index and the message
`Empty email text` (no prediction fields); `spam_count` counts exactly the
entries whose `prediction` field equals `"Spam"`, a test that is false on
every error entry, and `ham_count` is computed as the number of results
minus `spam_count` — so every error entry is counted in `ham_count`. -/
theorem predict_batch_empty_items_counted_ham {Vec Err : Type}
    (A : Artifacts Vec Err) (strOfErr : Err → String)
    (emails : List String) (resp : BatchResponse)
    (h : predict_batch A strOfErr emails = .ok resp) :
    (∀ i (hi : i < emails.length), (pyStrip (emails[i].data)).isEmpty = true →
      resp.results[i]? = some (.errorEntry i "Empty email text")) ∧
    resp.spam_count = resp.results.countP isSpamEntry ∧
    resp.ham_count = resp.results.length - resp.spam_count ∧
    resp.ham_count = resp.results.countP (fun e => !isSpamEntry e) ∧
    (∀ e ∈ resp.results, (∃ i msg, e = BatchEntry.errorEntry i msg) →
      isSpamEntry e = false) := by
  have hshape : ∃ l, batchLoop A 0 emails = .ok l ∧
      resp = { total := l.length, spam_count := l.countP isSpamEntry
               ham_count := l.length - l.countP isSpamEntry, results := l } := by
    rw [predict_batch] at h
    cases hb : batchLoop A 0 emails with
    | error e => rw [hb] at h; exact absurd h (by simp)
    | ok l => rw [hb] at h; exact ⟨l, rfl, (Except.ok.inj h).symm⟩
  obtain ⟨l, hl, hr⟩ := hshape
  subst hr
  refine ⟨?_, rfl, rfl, ?_, ?_⟩
  · intro i hi hempty
    rcases (batchLoop_ok_shape A emails 0 l hl).2 i hi with ⟨h1, h2⟩ | ⟨h1, _⟩
    · simpa using h2
    · rw [hempty] at h1
      exact absurd h1 (by decide)
  · show l.length - l.countP isSpamEntry = l.countP (fun e => !isSpamEntry e)
    have := countP_add_countP_not isSpamEntry l
    omega
  · intro e he hex
    obtain ⟨i, msg, hei⟩ := hex
    subst hei
    rfl

/-- Witness: `predict_batch_empty_items_counted_ham` on the batch
`["", "hi"]`: the empty first item yields the index-0 error entry, which is
counted in `ham_count`. -/
theorem predict_batch_empty_items_counted_ham_witness :
    ∃ resp, predict_batch demoArtifacts id ["", "hi"] = .ok resp ∧
      resp.results[0]? = some (.errorEntry 0 "Empty email text") ∧
      resp.ham_count = resp.results.countP (fun e => !isSpamEntry e) := by
  refine ⟨_, rfl, ?_, ?_⟩
  · exact (predict_batch_empty_items_counted_ham demoArtifacts id ["", "hi"] _
      rfl).1 0 (by decide) (by decide)
  · exact (predict_batch_empty_items_counted_ham demoArtifacts id ["", "hi"] _
      rfl).2.2.2.1

/-- Adjacent characters are not both whitespace. -/
def noTwoSpaces (a b : Char) : Prop :=
  ¬(isPySpace a = true ∧ isPySpace b = true)

/-- Characters of the whitespace-collapsed list are the single space or
non-whitespace characters of the input. -/
theorem mem_collapseWsAux (b : Bool) (l : List Char) (c : Char)
    (hc : c ∈ collapseWsAux b l) :
    c = ' ' ∨ (c ∈ l ∧ isPySpace c = false) := by
  induction l generalizing b with
  | nil => simp [collapseWsAux] at hc
  | cons d rest ih =>
      simp only [collapseWsAux] at hc
      by_cases hd : isPySpace d
      · rw [if_pos hd] at hc
        rcases List.mem_append.mp hc with h1 | h1
        · left
          cases b with
          | true => simp at h1
          | false => simpa using h1
        · rcases ih true h1 with h | ⟨h2, h3⟩
          · exact Or.inl h
          · exact Or.inr ⟨by simp [h2], h3⟩
      · rw [if_neg hd] at hc
        rcases List.mem_cons.mp hc with h1 | h1
        · subst h1
          exact Or.inr ⟨by simp, eq_false_of_ne_true hd⟩
        · rcases ih false h1 with h | ⟨h2, h3⟩
          · exact Or.inl h
          · exact Or.inr ⟨by simp [h2], h3⟩

/-- Inside a whitespace run the collapser emits nothing until the next
non-whitespace character, so in state `true` the head of its output is
never whitespace. -/
theorem head?_collapseWsAux_true (l : List Char) (c : Char)
    (hc : (collapseWsAux true l).head? = some c) : isPySpace c = false := by
  induction l with
  | nil => simp [collapseWsAux] at hc
  | cons d rest ih =>
      simp only [collapseWsAux] at hc
      by_cases hd : isPySpace d
      · rw [if_pos hd] at hc
        simp only [if_pos trivial, List.nil_append] at hc
        exact ih hc
      · rw [if_neg hd] at hc
        simp only [List.head?_cons, Option.some.injEq] at hc
        rw [← hc]
        exact eq_false_of_ne_true hd

/-- The whitespace-collapsed list never has two adjacent whitespace
characters. -/
theorem chain'_collapseWsAux (b : Bool) (l : List Char) :
    List.Chain' noTwoSpaces (collapseWsAux b l) := by
  induction l generalizing b with
  | nil =>
      show List.Chain' noTwoSpaces []
      simp
  | cons d rest ih =>
      simp only [collapseWsAux]
      by_cases hd : isPySpace d
      · rw [if_pos hd]
        cases b with
        | true => simpa using ih true
        | false =>
            show List.Chain' noTwoSpaces (' ' :: collapseWsAux true rest)
            rw [List.chain'_cons']
            refine ⟨?_, ih true⟩
            intro y hy
            have hy' := head?_collapseWsAux_true rest y hy
            intro hcon
            rw [hy'] at hcon
            exact absurd hcon.2 (by decide)
      · rw [if_neg hd]
        rw [List.chain'_cons']
        refine ⟨?_, ih false⟩
        intro y hy
        intro hcon
        rw [eq_false_of_ne_true hd] at hcon
        exact absurd hcon.1 (by decide)

/-- Stripping only removes characters. -/
theorem mem_pyStrip (l : List Char) (c : Char) (hc : c ∈ pyStrip l) :
    c ∈ l := by
  unfold pyStrip at hc
  rw [List.mem_reverse] at hc
  have h1 := (List.dropWhile_suffix isPySpace).subset hc
  rw [List.mem_reverse] at h1
  exact (List.dropWhile_suffix isPySpace).subset h1

/-- Stripping preserves any chain condition on adjacent characters. -/
theorem chain'_pyStrip (R : Char → Char → Prop) (l : List Char)
    (h : List.Chain' R l) : List.Chain' R (pyStrip l) := by
  unfold pyStrip
  have h1 : List.Chain' R (l.dropWhile isPySpace) :=
    List.Chain'.suffix h (List.dropWhile_suffix _)
  have h2 : List.Chain' (flip R) ((l.dropWhile isPySpace).reverse) :=
    List.chain'_reverse.mpr h1
  have h3 : List.Chain' (flip R)
      (((l.dropWhile isPySpace).reverse).dropWhile isPySpace) :=
    List.Chain'.suffix h2 (List.dropWhile_suffix _)
  exact List.chain'_reverse.mpr h3

/-- The last character of a stripped list is not whitespace. -/
theorem getLast?_pyStrip (l : List Char) (c : Char)
    (hc : (pyStrip l).getLast? = some c) : isPySpace c = false := by
  unfold pyStrip at hc
  rw [List.getLast?_reverse] at hc
  have hnot := List.head?_dropWhile_not isPySpace
    ((l.dropWhile isPySpace).reverse)
  rw [hc] at hnot
  simpa using hnot

/-- The first character of a stripped list is not whitespace. -/
theorem head?_pyStrip (l : List Char) (c : Char)
    (hc : (pyStrip l).head? = some c) : isPySpace c = false := by
  unfold pyStrip at hc
  obtain ⟨t, ht⟩ :=
    List.dropWhile_suffix (l := (l.dropWhile isPySpace).reverse) isPySpace
  have hrev :
      (((l.dropWhile isPySpace).reverse).dropWhile isPySpace).reverse
        ++ t.reverse = l.dropWhile isPySpace := by
    rw [← List.reverse_append, ht, List.reverse_reverse]
  have hh : (l.dropWhile isPySpace).head? = some c := by
    rw [← hrev, List.head?_append, hc]
    rfl
  have hnot := List.head?_dropWhile_not isPySpace l
  rw [hh] at hnot
  simpa using hnot

/-- Normal form of `cleanList` output: only letters `a`–`z` and spaces,
never two adjacent whitespace characters, no whitespace at either end. -/
theorem cleanList_props (l : List Char) :
    (∀ c ∈ cleanList l, ('a' ≤ c ∧ c ≤ 'z') ∨ c = ' ') ∧
    List.Chain' noTwoSpaces (cleanList l) ∧
    (∀ c, (cleanList l).head? = some c → isPySpace c = false) ∧
    (∀ c, (cleanList l).getLast? = some c → isPySpace c = false) := by
  refine ⟨?_, ?_, ?_, ?_⟩
  · intro c hc
    have hm := mem_pyStrip _ c hc
    rcases mem_collapseWsAux false _ c hm with h | ⟨h2, h3⟩
    · exact Or.inr h
    · left
      have hp := List.of_mem_filter h2
      rw [h3] at hp
      simpa using hp
  · exact chain'_pyStrip noTwoSpaces
      (collapseWs (removeNonAlpha (removeUrls (l.map pyLower))))
      (chain'_collapseWsAux false
        (removeNonAlpha (removeUrls (l.map pyLower))))
  · exact fun c hc => head?_pyStrip _ c hc
  · exact fun c hc => getLast?_pyStrip _ c hc

/-- C4: for every input string — including the empty string,
pure-whitespace strings and pure-URL strings such as `HTTP://X.COM`, which
all produce the empty string — the output of `clean_text` contains only
lowercase ASCII letters `a`–`z` and single spaces between tokens, with no
double spaces and no leading or trailing whitespace. -/
theorem clean_text_normal_form (s : String) :
    (∀ c ∈ (clean_text s).data, ('a' ≤ c ∧ c ≤ 'z') ∨ c = ' ') ∧
    List.Chain' (fun a b => ¬(a = ' ' ∧ b = ' ')) (clean_text s).data ∧
    (∀ c, (clean_text s).data.head? = some c → c ≠ ' ') ∧
    (∀ c, (clean_text s).data.getLast? = some c → c ≠ ' ') := by
  obtain ⟨h1, h2, h3, h4⟩ := cleanList_props s.data
  refine ⟨h1, ?_, ?_, ?_⟩
  · refine h2.imp ?_
    intro a b hab hcon
    exact hab ⟨by rw [hcon.1]; decide, by rw [hcon.2]; decide⟩
  · intro c hc hsp
    have := h3 c hc
    rw [hsp] at this
    exact absurd this (by decide)
  · intro c hc hsp
    have := h4 c hc
    rw [hsp] at this
    exact absurd this (by decide)

/-- Witness: `clean_text_normal_form` on a string with uppercase letters, a
digit, a URL and surrounding whitespace, whose cleaned form is `ab cd`. -/
theorem clean_text_normal_form_witness :
    clean_text " Ab3 http://x.y  cd " = "ab cd" ∧
    (('a' ≤ 'c' ∧ 'c' ≤ 'z') ∨ 'c' = ' ') ∧ 'a' ≠ ' ' ∧ 'd' ≠ ' ' :=
  have h := clean_text_normal_form " Ab3 http://x.y  cd "
  ⟨by decide, h.1 'c' (by decide), h.2.2.1 'a' (by decide),
    h.2.2.2 'd' (by decide)⟩

/-- A character at or above `a` is not whitespace. -/
theorem isPySpace_eq_false_of_letter (c : Char) (h1 : 'a' ≤ c) :
    isPySpace c = false := by
  unfold isPySpace
  simp only [Bool.or_eq_false_iff, decide_eq_false_iff_not]
  refine ⟨⟨⟨⟨⟨?_, ?_⟩, ?_⟩, ?_⟩, ?_⟩, ?_⟩ <;>
    · rintro rfl
      exact absurd h1 (by decide)

/-- Lowercasing fixes lowercase letters and the space. -/
theorem pyLower_fixed (c : Char)
    (h : ('a' ≤ c ∧ c ≤ 'z') ∨ c = ' ') : pyLower c = c := by
  unfold pyLower
  rw [if_neg]
  rintro ⟨hA, hZ⟩
  rcases h with ⟨h1, _⟩ | rfl
  · exact absurd (le_trans h1 hZ) (by decide)
  · exact absurd hA (by decide)

/-- Lowercasing fixes a list of lowercase letters and spaces. -/
theorem map_pyLower_id (l : List Char)
    (h : ∀ c ∈ l, ('a' ≤ c ∧ c ≤ 'z') ∨ c = ' ') : l.map pyLower = l := by
  induction l with
  | nil => rfl
  | cons c t ih =>
      simp only [List.map_cons]
      rw [pyLower_fixed c (h c (by simp)), ih (fun x hx => h x (by simp [hx]))]

/-- The non-alphabetic filter fixes a list of lowercase letters and
spaces. -/
theorem removeNonAlpha_id (l : List Char)
    (h : ∀ c ∈ l, ('a' ≤ c ∧ c ≤ 'z') ∨ c = ' ') : removeNonAlpha l = l := by
  unfold removeNonAlpha
  rw [List.filter_eq_self]
  intro a ha
  rcases h a ha with ⟨h1, h2⟩ | rfl
  · simp [h1, h2]
  · decide

/-- Whitespace collapsing fixes a list of letters and spaces in which no
two adjacent characters are whitespace. -/
theorem collapseWsAux_false_id (l : List Char)
    (hchar : ∀ c ∈ l, ('a' ≤ c ∧ c ≤ 'z') ∨ c = ' ')
    (hchain : List.Chain' noTwoSpaces l) : collapseWsAux false l = l := by
  induction l with
  | nil => rfl
  | cons d rest ih =>
      have hrest := ih (fun x hx => hchar x (by simp [hx])) hchain.tail
      rcases hchar d (by simp) with ⟨h1, _⟩ | rfl
      · have hd : isPySpace d = false := isPySpace_eq_false_of_letter d h1
        show collapseWsAux false (d :: rest) = d :: rest
        simp only [collapseWsAux]
        rw [if_neg (by simp [hd]), hrest]
      · show collapseWsAux false (' ' :: rest) = ' ' :: rest
        simp only [collapseWsAux]
        rw [if_pos (by decide : isPySpace ' ' = true)]
        show ' ' :: collapseWsAux true rest = ' ' :: rest
        congr 1
        cases rest with
        | nil => rfl
        | cons e rest' =>
            have hns : noTwoSpaces ' ' e :=
              (List.chain'_cons'.mp hchain).1 e rfl
            have he : isPySpace e = false := by
              by_contra hcon
              exact hns ⟨by decide, eq_true_of_ne_false hcon⟩
            have hcons : collapseWsAux false (e :: rest') =
                e :: collapseWsAux false rest' := by
              simp only [collapseWsAux]
              rw [if_neg (by simp [he])]
            have hrest' : collapseWsAux false rest' = rest' := by
              rw [hcons] at hrest
              exact (List.cons.inj hrest).2
            show collapseWsAux true (e :: rest') = e :: rest'
            simp only [collapseWsAux]
            rw [if_neg (by simp [he]), hrest']

/-- Stripping fixes a list with no whitespace at either end. -/
theorem pyStrip_id (l : List Char)
    (hhead : ∀ c, l.head? = some c → isPySpace c = false)
    (hlast : ∀ c, l.getLast? = some c → isPySpace c = false) :
    pyStrip l = l := by
  unfold pyStrip
  have h1 : l.dropWhile isPySpace = l := by
    cases l with
    | nil => rfl
    | cons c t =>
        rw [List.dropWhile_cons, hhead c rfl]
        simp
  rw [h1]
  have h2 : l.reverse.dropWhile isPySpace = l.reverse := by
    cases hrev : l.reverse with
    | nil => rfl
    | cons c t =>
        have hc : l.getLast? = some c := by
          rw [← List.head?_reverse, hrev]
          rfl
        rw [List.dropWhile_cons, hlast c hc]
        simp
  rw [h2, List.reverse_reverse]

/-- A list in `cleanList` normal form that is unchanged by URL removal is a
fixed point of `cleanList`. -/
theorem cleanList_fixed (t : List Char)
    (hchar : ∀ c ∈ t, ('a' ≤ c ∧ c ≤ 'z') ∨ c = ' ')
    (hchain : List.Chain' noTwoSpaces t)
    (hhead : ∀ c, t.head? = some c → isPySpace c = false)
    (hlast : ∀ c, t.getLast? = some c → isPySpace c = false)
    (hurl : removeUrls t = t) :
    cleanList t = t := by
  unfold cleanList
  rw [map_pyLower_id t hchar, hurl, removeNonAlpha_id t hchar]
  show pyStrip (collapseWsAux false t) = t
  rw [collapseWsAux_false_id t hchar hchain]
  exact pyStrip_id t hhead hlast

/-- Counterexample to C5 as stated: cleaning `htt!px` deletes the `!` and
fuses the letters into `httpx`, which the second cleaning pass then removes
entirely as a URL — `clean_text` is not idempotent. -/
theorem clean_text_not_idempotent_cex :
    clean_text "htt!px" = "httpx" ∧ clean_text "httpx" = "" ∧
    clean_text (clean_text "htt!px") ≠ clean_text "htt!px" :=
  ⟨by decide, by decide, by decide⟩

/-- C5 (amended): `clean_text` is idempotent on every string whose cleaned
form is unchanged by the URL-removal step — in particular whenever the
cleaned output contains no occurrence of `http` followed directly by a
non-whitespace character.  Without that proviso idempotence fails, because
deleting punctuation or digits can fuse letters into a new `http…` token
that only the second pass removes. -/
theorem clean_text_idempotent_of_urlfree (s : String)
    (hurl : removeUrls ((clean_text s).data) = (clean_text s).data) :
    clean_text (clean_text s) = clean_text s := by
  obtain ⟨h1, h2, h3, h4⟩ := cleanList_props s.data
  have hfix : cleanList ((clean_text s).data) = (clean_text s).data :=
    cleanList_fixed _ h1 h2 h3 h4 hurl
  show (⟨cleanList ((clean_text s).data)⟩ : String) = clean_text s
  rw [hfix]

/-- Witness: `clean_text_idempotent_of_urlfree` on a concrete URL-free
string. -/
theorem clean_text_idempotent_of_urlfree_witness :
    clean_text (clean_text "  Hello,  WORLD 42! ") =
      clean_text "  Hello,  WORLD 42! " :=
  clean_text_idempotent_of_urlfree "  Hello,  WORLD 42! " (by decide)
